import Mathlib

/-!
Shallow embedding of the squeakmail feed reader.

The embedding mirrors the three source modules:
- `feed` : feed normalization and the trial-parse entry point (src/feed.rs);
- `database` : the persistent store, its schema-version gate and upsert
  statements (src/database.rs);
- `main` : the fetch pipeline and the mail command (src/main.rs).

External library calls are represented by explicit parameters: the RSS and
Atom parsers are functions `String → Option _`, the RFC 2822 date parser is
`String → Option Date`, and the current UTC instant is a parameter `now`.
Timestamps are modelled as integers denoting instants; timezone conversions
that preserve the instant are identities in this model.
-/

namespace feed

/-- UTC instants, as used for `pub_date` values. -/
abbrev Date := Int

/-- Normalized feed entry, from `feed::Item` in src/feed.rs. -/
structure Item where
  guid : String
  title : String
  link : String
  comments_link : Option String
  pub_date : Date
deriving Repr, DecidableEq

/-- An RSS entry as exposed by the rss crate accessors used in src/feed.rs:
`guid()` (its value string), `title()`, `link()`, `comments()`, `pub_date()`
all return optional data. -/
structure RssItem where
  guid : Option String
  title : Option String
  link : Option String
  comments : Option String
  pub_date : Option String
deriving Repr, DecidableEq

/-- An RSS channel: `title()`, `link()` and `items()` as used in src/feed.rs. -/
structure RssChannel where
  title : String
  link : String
  items : List RssItem
deriving Repr, DecidableEq

/-- An Atom link, exposing `href()`. -/
structure AtomLink where
  href : String
deriving Repr, DecidableEq

/-- An Atom entry: `id()` and `title()` are mandatory, `links()` is a list,
`published()` is optional (an instant, timezone conversion preserved). -/
structure AtomEntry where
  id : String
  title : String
  links : List AtomLink
  published : Option Date
deriving Repr, DecidableEq

/-- An Atom feed: `title()`, `links()`, `entries()`. -/
structure AtomFeed where
  title : String
  links : List AtomLink
  entries : List AtomEntry
deriving Repr, DecidableEq

/-- RSS-entry normalization, from `impl From<&rss::Item> for Item`
(src/feed.rs lines 16-30). `parse_rfc2822` stands for
`DateTime::parse_from_rfc2822` and `now` for `Utc::now()`; the
`with_timezone` calls preserve the instant and are identities here. -/
def Item.fromRss (parse_rfc2822 : String → Option Date) (now : Date)
    (item : RssItem) : Item :=
  { guid := match item.guid with
      | some g => g
      | none => ""
    title := item.title.getD "Untitled"
    link := item.link.getD "https://example.com"
    comments_link := item.comments
    pub_date := match item.pub_date with
      | none => now
      | some date_str =>
        match parse_rfc2822 date_str with
        | some dt => dt
        | none => now }

/-- Atom-entry normalization, from `impl From<&atom::Entry> for Item`
(src/feed.rs lines 31-47). -/
def Item.fromAtom (now : Date) (entry : AtomEntry) : Item :=
  { guid := entry.id
    title := entry.title
    link := match entry.links.head? with
      | some l => l.href
      | none => "https://example.com"
    comments_link := none
    pub_date := entry.published.getD now }

/-- Parser errors, from `feed::Error` in src/feed.rs. -/
inductive Error where
  | Io
  | Parse
deriving Repr, DecidableEq

/-- A parsed feed, from `feed::Feed` in src/feed.rs. -/
inductive Feed where
  | Rss (channel : RssChannel)
  | Atom (atom_feed : AtomFeed)
deriving Repr, DecidableEq

/-- Trial-parse entry point, from `Feed::read_from` (src/feed.rs lines 63-73):
strict RSS parse first, Atom on failure, `Parse` error when both fail.
`rss_from_str` and `atom_from_str` stand for the two library parsers. -/
def Feed.read_from (rss_from_str : String → Option RssChannel)
    (atom_from_str : String → Option AtomFeed) (body : String) :
    Except Error Feed :=
  match rss_from_str body with
  | some channel => .ok (.Rss channel)
  | none =>
    match atom_from_str body with
    | some atom_feed => .ok (.Atom atom_feed)
    | none => .error .Parse

/-- Feed-level title, from `Feed::title` (src/feed.rs lines 74-79). -/
def Feed.title : Feed → String
  | .Rss channel => channel.title
  | .Atom atom_feed => atom_feed.title

/-- Feed-level link, from `Feed::link` (src/feed.rs lines 80-85). -/
def Feed.link : Feed → String
  | .Rss channel => channel.link
  | .Atom atom_feed =>
    match atom_feed.links.head? with
    | some l => l.href
    | none => "Untitled"

/-- The normalized entry sequence, from `Feed::items` and the `Items`
iterator (src/feed.rs lines 86-106). -/
def Feed.items (parse_rfc2822 : String → Option Date) (now : Date) :
    Feed → List Item
  | .Rss channel => channel.items.map (Item.fromRss parse_rfc2822 now)
  | .Atom atom_feed => atom_feed.entries.map (Item.fromAtom now)

end feed

namespace database

/-- Store errors, from `database::Error` in src/database.rs. -/
inductive Error where
  | Sql
  | UnknownVersion (version : Nat)
deriving Repr, DecidableEq

/-- A feed row, from `database::Feed` (src/database.rs lines 17-24). -/
structure Feed where
  url : String
  link : String
  title : String
  etag : Option String
  last_modified : Option String
deriving Repr, DecidableEq

/-- An item row, from `database::Item` (src/database.rs lines 26-35). -/
structure Item where
  feed_url : String
  guid : String
  title : String
  link : String
  comments_link : Option String
  pub_date : feed.Date
  is_read : Bool
deriving Repr, DecidableEq

/-- The persistent state of the SQLite file behind `database::Database`:
the `user_version` pragma plus the `feed` and `item` tables as row lists. -/
structure Database where
  user_version : Nat
  feeds : List Feed
  items : List Item
deriving Repr, DecidableEq

/-- Modelled from the spec: `resources/create_db.sql` is not among the given
sources; per the spec it performs the one-shot schema creation, advancing the
schema version to `1`. Table creation itself is invisible in the row-list
model. -/
def create_db_sql (db : Database) : Database :=
  { db with user_version := 1 }

/-- The schema-version gate, from `Database::run_migrations`
(src/database.rs lines 48-63): version 0 applies the schema script, version 1
does nothing, any other version fails with `UnknownVersion` and executes no
schema statement (the returned state is the input state). -/
def Database.run_migrations (db : Database) : Database × Except Error Unit :=
  match db.user_version with
  | 0 => (create_db_sql db, .ok ())
  | 1 => (db, .ok ())
  | v + 2 => (db, .error (.UnknownVersion (v + 2)))

/-- Feed upsert, from `Database::insert_update_feed`
(src/database.rs lines 65-83): SQLite `REPLACE INTO feed` deletes any row with
the same primary key `url` and inserts the new row. -/
def Database.insert_update_feed (db : Database) (f : Feed) : Database :=
  { db with feeds := db.feeds.filter (fun r => r.url != f.url) ++ [f] }

/-- Point lookup, from `Database::get_feed_by_url`
(src/database.rs lines 85-107). -/
def Database.get_feed_by_url (db : Database) (url : String) : Option Feed :=
  db.feeds.find? (fun r => r.url == url)

/-- The `DO UPDATE SET link = excluded.link, title = excluded.title,
pub_date = excluded.pub_date` clause applied to the row in conflict with
`item`: only those three columns change, every other row is untouched. -/
def do_update (item r : Item) : Item :=
  if r.feed_url == item.feed_url && r.guid == item.guid then
    { r with link := item.link, title := item.title, pub_date := item.pub_date }
  else r

/-- The `item` table upsert statement of `Database::insert_update_item`:
`INSERT ... ON CONFLICT (feed_url, guid) DO UPDATE SET link, title, pub_date`.
On conflict only those three columns are set; `is_read` and `comments_link`
of the existing row are untouched. -/
def upsert_rows (rows : List Item) (item : Item) : List Item :=
  if rows.any (fun r => r.feed_url == item.feed_url && r.guid == item.guid) then
    rows.map (do_update item)
  else
    rows ++ [item]

/-- Item upsert, from `Database::insert_update_item`
(src/database.rs lines 109-136). -/
def Database.insert_update_item (db : Database) (item : Item) : Database :=
  { db with items := upsert_rows db.items item }

/-- Unread query, from `Database::get_unread_items`
(src/database.rs lines 138-167): items of the feed with `is_read = 0`,
ordered by `pub_date` ascending. -/
def Database.get_unread_items (db : Database) (feed_url : String) : List Item :=
  (db.items.filter (fun r => r.feed_url == feed_url && r.is_read == false)).insertionSort
    (fun a b => a.pub_date ≤ b.pub_date)

/-- Mark-all-read, from `Database::mark_all_items_read`
(src/database.rs lines 169-174): `UPDATE item SET is_read = 1`,
unconditionally over every stored item. -/
def Database.mark_all_items_read (db : Database) : Database :=
  { db with items := db.items.map (fun r => { r with is_read := true }) }

end database

namespace main

/-- Application errors, from `main::Error` (src/main.rs lines 28-53),
restricted to the variants produced by the modelled paths. -/
inductive Error where
  | FeedNotModified
  | UnexpectedStatusCode (code : Nat)
  | Parse (e : feed.Error)
  | Sendmail
deriving Repr, DecidableEq

/-- An HTTP response as consumed by `fetch_feed`: status code, the optional
`ETag` and `Last-Modified` headers (already decoded to strings; an undecodable
header is `none`, as with `to_str().ok()`), and the body text. -/
structure HttpResponse where
  status : Nat
  etag : Option String
  last_modified : Option String
  body : String
deriving Repr, DecidableEq

/-- `StatusCode::is_success`: a 2xx status. -/
def is_success (status : Nat) : Bool :=
  200 ≤ status && status < 300

/-- The item row built for each parsed entry at src/main.rs lines 304-312:
every fetch-driven upsert carries `is_read = false`. -/
def to_row (feed_url : String) (item : feed.Item) : database.Item :=
  { feed_url := feed_url
    guid := item.guid
    title := item.title
    link := item.link
    comments_link := item.comments_link
    pub_date := item.pub_date
    is_read := false }

/-- One conditional fetch, from `fetch_feed` (src/main.rs lines 255-315),
given the response the server produced: status 304 stops with
`FeedNotModified`, a non-2xx status stops with `UnexpectedStatusCode`, a
body failing both parsers stops with `Parse`; otherwise the feed row is
upserted from the parsed feed and the response caching headers, then every
normalized entry is upserted with `is_read = false`. The resulting store
state is returned together with the outcome. -/
def fetch_feed (rss_from_str : String → Option feed.RssChannel)
    (atom_from_str : String → Option feed.AtomFeed)
    (parse_rfc2822 : String → Option feed.Date) (now : feed.Date)
    (feed_url : String) (resp : HttpResponse) (db : database.Database) :
    database.Database × Except Error Unit :=
  if resp.status = 304 then
    (db, .error .FeedNotModified)
  else if !is_success resp.status then
    (db, .error (.UnexpectedStatusCode resp.status))
  else
    match feed.Feed.read_from rss_from_str atom_from_str resp.body with
    | .error e => (db, .error (.Parse e))
    | .ok f =>
      let db1 := db.insert_update_feed
        { url := feed_url
          link := f.link
          title := f.title
          etag := resp.etag
          last_modified := resp.last_modified }
      let db2 := (f.items parse_rfc2822 now).foldl
        (fun acc item => acc.insert_update_item (to_row feed_url item)) db1
      (db2, .ok ())

/-- The coordinator drain, from `fetch_feeds` (src/main.rs lines 223-253),
as observed through the store: each queued URL is fetched against the
response the server gives it, and a per-feed failure is logged and swallowed,
never stopping the drain. Queue order is unspecified in the source; the model
takes the jobs in list order. -/
def fetch_feeds (rss_from_str : String → Option feed.RssChannel)
    (atom_from_str : String → Option feed.AtomFeed)
    (parse_rfc2822 : String → Option feed.Date) (now : feed.Date)
    (jobs : List (String × HttpResponse)) (db : database.Database) :
    database.Database :=
  match jobs with
  | [] => db
  | (feed_url, resp) :: rest =>
    fetch_feeds rss_from_str atom_from_str parse_rfc2822 now rest
      (fetch_feed rss_from_str atom_from_str parse_rfc2822 now feed_url resp db).1

/-- The mail command branch of `run` (src/main.rs lines 205-218): a dry run
prints the rendered mail and touches nothing; otherwise the mail is sent and
`mark_all_items_read` runs only when the transport reports success
(`send_ok`), a transport failure propagating as `Sendmail` before any store
write. -/
def run_mail (dry : Bool) (send_ok : Bool) (db : database.Database) :
    database.Database × Except Error Unit :=
  if dry then
    (db, .ok ())
  else if send_ok then
    (db.mark_all_items_read, .ok ())
  else
    (db, .error .Sendmail)

end main

/-- Does row `r` have primary key `(feed_url, guid)`? The conflict predicate
of the `item` table. -/
def key_matches (r : database.Item) (feed_url guid : String) : Bool :=
  r.feed_url == feed_url && r.guid == guid

/-- The stored row with primary key `(feed_url, guid)`, when present. -/
def lookup_item (rows : List database.Item) (feed_url guid : String) :
    Option database.Item :=
  rows.find? (fun r => key_matches r feed_url guid)

/-- How many stored rows carry primary key `(feed_url, guid)`. -/
def count_key (rows : List database.Item) (feed_url guid : String) : Nat :=
  (rows.filter (fun r => key_matches r feed_url guid)).length

/-- The metadata overwrite performed by a run of conflicting upserts: each
conflicting upsert in turn supplies `link`, `title` and `pub_date`, every
other column keeps the value of `base`. -/
def merge_meta (base : database.Item) (K : List database.Item) : database.Item :=
  K.foldl
    (fun b u => { b with link := u.link, title := u.title, pub_date := u.pub_date })
    base

lemma key_matches_iff (r : database.Item) (fu g : String) :
    key_matches r fu g = true ↔ r.feed_url = fu ∧ r.guid = g := by
  simp [key_matches]

lemma do_update_feed_url (item r : database.Item) :
    (database.do_update item r).feed_url = r.feed_url := by
  unfold database.do_update; split <;> rfl

lemma do_update_guid (item r : database.Item) :
    (database.do_update item r).guid = r.guid := by
  unfold database.do_update; split <;> rfl

lemma do_update_is_read (item r : database.Item) :
    (database.do_update item r).is_read = r.is_read := by
  unfold database.do_update; split <;> rfl

lemma key_matches_do_update (item r : database.Item) (fu g : String) :
    key_matches (database.do_update item r) fu g = key_matches r fu g := by
  unfold key_matches
  rw [do_update_feed_url, do_update_guid]

lemma lookup_map_do_update (rows : List database.Item) (item : database.Item)
    (fu g : String) :
    lookup_item (rows.map (database.do_update item)) fu g =
      (lookup_item rows fu g).map (database.do_update item) := by
  unfold lookup_item
  rw [List.find?_map]
  have hcomp : ((fun r => key_matches r fu g) ∘ database.do_update item) =
      fun r => key_matches r fu g := by
    funext r
    simp [Function.comp, key_matches_do_update]
  rw [hcomp]

lemma count_map_do_update (rows : List database.Item) (item : database.Item)
    (fu g : String) :
    count_key (rows.map (database.do_update item)) fu g = count_key rows fu g := by
  unfold count_key
  rw [List.filter_map]
  have hcomp : ((fun r => key_matches r fu g) ∘ database.do_update item) =
      fun r => key_matches r fu g := by
    funext r
    simp [Function.comp, key_matches_do_update]
  rw [hcomp, List.length_map]

lemma count_key_eq_zero (rows : List database.Item) (fu g : String)
    (h : lookup_item rows fu g = none) : count_key rows fu g = 0 := by
  unfold lookup_item at h
  unfold count_key
  rw [List.filter_eq_nil_iff.mpr (by simpa using List.find?_eq_none.mp h)]
  rfl

/-- The effect of one item upsert on the row stored under any key: an upsert
whose key differs leaves the row alone; an upsert with the same key inserts
the full value when the key was absent and otherwise overwrites only `link`,
`title` and `pub_date`. -/
lemma lookup_upsert (rows : List database.Item) (item : database.Item)
    (fu g : String) :
    lookup_item (database.upsert_rows rows item) fu g =
      if key_matches item fu g then
        match lookup_item rows fu g with
        | some old =>
          some { old with link := item.link, title := item.title,
                          pub_date := item.pub_date }
        | none => some item
      else lookup_item rows fu g := by
  unfold database.upsert_rows
  by_cases hc : (rows.any fun r => r.feed_url == item.feed_url && r.guid == item.guid) = true
  · rw [if_pos hc, lookup_map_do_update]
    cases hk : key_matches item fu g with
    | false =>
      simp only [Bool.false_eq_true, if_false]
      cases hf : lookup_item rows fu g with
      | none => rfl
      | some r =>
        have hkr : key_matches r fu g = true := by
          unfold lookup_item at hf
          have h0 := List.find?_some hf
          simpa using h0
        have h1 := (key_matches_iff r fu g).mp hkr
        have hupd : database.do_update item r = r := by
          unfold database.do_update
          rw [if_neg]
          intro hcond
          have h2 : r.feed_url = item.feed_url ∧ r.guid = item.guid := by
            simpa using hcond
          have : key_matches item fu g = true :=
            (key_matches_iff item fu g).mpr ⟨h2.1.symm.trans h1.1, h2.2.symm.trans h1.2⟩
          simp [hk] at this
        simp [hupd]
    | true =>
      have hi := (key_matches_iff item fu g).mp hk
      simp only [if_true]
      cases hf : lookup_item rows fu g with
      | none =>
        exfalso
        rcases List.any_eq_true.mp hc with ⟨r, hmem, hcond⟩
        have h2 : r.feed_url = item.feed_url ∧ r.guid = item.guid := by
          simpa using hcond
        have hrk : key_matches r fu g = true :=
          (key_matches_iff r fu g).mpr ⟨h2.1.trans hi.1, h2.2.trans hi.2⟩
        have hnone : ∀ x ∈ rows, ¬ key_matches x fu g = true := by
          simpa [lookup_item] using List.find?_eq_none.mp hf
        exact hnone r hmem hrk
      | some r =>
        have hkr : key_matches r fu g = true := by
          unfold lookup_item at hf
          have h0 := List.find?_some hf
          simpa using h0
        have h1 := (key_matches_iff r fu g).mp hkr
        have hupd : database.do_update item r =
            { r with link := item.link, title := item.title,
                     pub_date := item.pub_date } := by
          unfold database.do_update
          rw [if_pos]
          simp only [Bool.and_eq_true, beq_iff_eq]
          exact ⟨h1.1.trans hi.1.symm, h1.2.trans hi.2.symm⟩
        simp [hupd]
  · rw [if_neg hc]
    unfold lookup_item
    rw [List.find?_append]
    cases hk : key_matches item fu g with
    | true =>
      have hi := (key_matches_iff item fu g).mp hk
      have hnone : rows.find? (fun r => key_matches r fu g) = none := by
        apply List.find?_eq_none.mpr
        intro r hmem hrk
        apply hc
        apply List.any_eq_true.mpr
        refine ⟨r, hmem, ?_⟩
        have h1 := (key_matches_iff r fu g).mp hrk
        simp only [Bool.and_eq_true, beq_iff_eq]
        exact ⟨h1.1.trans hi.1.symm, h1.2.trans hi.2.symm⟩
      rw [hnone]
      simp [lookup_item, List.find?, hk, hnone]
    | false =>
      simp only [Bool.false_eq_true, if_false]
      simp [lookup_item, List.find?, hk]

/-- The effect of one item upsert on the number of rows under any key: a
conflicting upsert changes no key multiset; a fresh insert adds one row under
the inserted key. -/
lemma count_upsert (rows : List database.Item) (item : database.Item)
    (fu g : String) :
    count_key (database.upsert_rows rows item) fu g =
      if (rows.any fun r => r.feed_url == item.feed_url && r.guid == item.guid) then
        count_key rows fu g
      else
        count_key rows fu g + (if key_matches item fu g then 1 else 0) := by
  unfold database.upsert_rows
  by_cases hc : (rows.any fun r => r.feed_url == item.feed_url && r.guid == item.guid) = true
  · rw [if_pos hc, if_pos hc, count_map_do_update]
  · rw [if_neg hc, if_neg hc]
    unfold count_key
    rw [List.filter_append, List.length_append]
    cases hk : key_matches item fu g <;> simp [hk]

lemma merge_meta_nil (base : database.Item) : merge_meta base [] = base := rfl

lemma merge_meta_cons (base u : database.Item) (K : List database.Item) :
    merge_meta base (u :: K) =
      merge_meta
        { base with link := u.link, title := u.title, pub_date := u.pub_date } K :=
  rfl

lemma merge_meta_frame (K : List database.Item) :
    ∀ base : database.Item,
      (merge_meta base K).is_read = base.is_read ∧
      (merge_meta base K).feed_url = base.feed_url ∧
      (merge_meta base K).guid = base.guid ∧
      (merge_meta base K).comments_link = base.comments_link := by
  induction K with
  | nil => intro base; exact ⟨rfl, rfl, rfl, rfl⟩
  | cons u K ih =>
    intro base
    rw [merge_meta_cons]
    exact ih _

lemma merge_meta_getLast (K : List database.Item) :
    ∀ (base last : database.Item), K.getLast? = some last →
      (merge_meta base K).title = last.title ∧
      (merge_meta base K).link = last.link ∧
      (merge_meta base K).pub_date = last.pub_date := by
  induction K with
  | nil => intro base last h; simp at h
  | cons u K ih =>
    intro base last h
    cases K with
    | nil =>
      simp at h
      subst h
      rw [merge_meta_cons, merge_meta_nil]
      exact ⟨rfl, rfl, rfl⟩
    | cons k ks =>
      rw [List.getLast?_cons_cons] at h
      rw [merge_meta_cons]
      exact ih _ last h

/-- The row stored under a key after a whole run of item upserts: upserts
under other keys are invisible; if the key was present, the original row
survives with only its metadata rewritten by the conflicting upserts; if it
was absent, the first upsert under the key is inserted whole and the later
ones rewrite its metadata. -/
lemma lookup_foldl_upsert (ups : List database.Item) (fu g : String) :
    ∀ rows : List database.Item,
      lookup_item (ups.foldl database.upsert_rows rows) fu g =
        match lookup_item rows fu g with
        | some old => some (merge_meta old (ups.filter (fun u => key_matches u fu g)))
        | none =>
          match ups.filter (fun u => key_matches u fu g) with
          | [] => none
          | u0 :: rest => some (merge_meta u0 rest) := by
  induction ups with
  | nil =>
    intro rows
    cases hf : lookup_item rows fu g <;> simp [merge_meta_nil, hf]
  | cons u ups ih =>
    intro rows
    have hstep := lookup_upsert rows u fu g
    rw [List.foldl_cons, ih (database.upsert_rows rows u)]
    cases hk : key_matches u fu g with
    | false =>
      have hlook : lookup_item (database.upsert_rows rows u) fu g =
          lookup_item rows fu g := by
        rw [hstep]; simp [hk]
      rw [hlook, List.filter_cons_of_neg (by simp [hk])]
    | true =>
      cases hf : lookup_item rows fu g with
      | some old =>
        have hlook : lookup_item (database.upsert_rows rows u) fu g =
            some { old with link := u.link, title := u.title,
                            pub_date := u.pub_date } := by
          rw [hstep]; simp [hk, hf]
        rw [hlook, List.filter_cons_of_pos (by simp [hk])]
        simp [merge_meta_cons]
      | none =>
        have hlook : lookup_item (database.upsert_rows rows u) fu g = some u := by
          rw [hstep]; simp [hk, hf]
        rw [hlook, List.filter_cons_of_pos (by simp [hk])]

/-- The number of rows stored under a key after a whole run of item upserts:
it never exceeds one when the key started absent, and never changes when the
key was already present. -/
lemma count_foldl_upsert (ups : List database.Item) (fu g : String) :
    ∀ rows : List database.Item,
      count_key (ups.foldl database.upsert_rows rows) fu g =
        match lookup_item rows fu g with
        | some _ => count_key rows fu g
        | none =>
          if (ups.filter (fun u => key_matches u fu g)).isEmpty then
            count_key rows fu g
          else 1 := by
  induction ups with
  | nil =>
    intro rows
    cases hf : lookup_item rows fu g <;> simp
  | cons u ups ih =>
    intro rows
    have hstep := lookup_upsert rows u fu g
    have hcnt := count_upsert rows u fu g
    rw [List.foldl_cons, ih (database.upsert_rows rows u)]
    cases hk : key_matches u fu g with
    | false =>
      have hlook : lookup_item (database.upsert_rows rows u) fu g =
          lookup_item rows fu g := by
        rw [hstep]; simp [hk]
      have hc2 : count_key (database.upsert_rows rows u) fu g =
          count_key rows fu g := by
        rw [hcnt]
        split <;> simp [hk]
      rw [hlook, hc2, List.filter_cons_of_neg (by simp [hk])]
    | true =>
      have hi := (key_matches_iff u fu g).mp hk
      cases hf : lookup_item rows fu g with
      | some old =>
        have hmem : old ∈ rows := by
          unfold lookup_item at hf
          exact List.mem_of_find?_eq_some hf
        have hkr : key_matches old fu g = true := by
          unfold lookup_item at hf
          have h0 := List.find?_some hf
          simpa using h0
        have h1 := (key_matches_iff old fu g).mp hkr
        have hany : (rows.any fun r =>
            r.feed_url == u.feed_url && r.guid == u.guid) = true := by
          apply List.any_eq_true.mpr
          refine ⟨old, hmem, ?_⟩
          simp only [Bool.and_eq_true, beq_iff_eq]
          exact ⟨h1.1.trans hi.1.symm, h1.2.trans hi.2.symm⟩
        have hlook : lookup_item (database.upsert_rows rows u) fu g =
            some { old with link := u.link, title := u.title,
                            pub_date := u.pub_date } := by
          rw [hstep]; simp [hk, hf]
        have hc2 : count_key (database.upsert_rows rows u) fu g =
            count_key rows fu g := by
          rw [hcnt, if_pos hany]
        rw [hlook, hc2]
      | none =>
        have hany : (rows.any fun r =>
            r.feed_url == u.feed_url && r.guid == u.guid) = false := by
          apply Bool.eq_false_iff.mpr
          intro hcon
          rcases List.any_eq_true.mp hcon with ⟨r, hmem, hcond⟩
          have h2 : r.feed_url = u.feed_url ∧ r.guid = u.guid := by
            simpa using hcond
          have hnone : ∀ x ∈ rows, ¬ key_matches x fu g = true := by
            simpa [lookup_item] using List.find?_eq_none.mp hf
          exact hnone r hmem
            ((key_matches_iff r fu g).mpr ⟨h2.1.trans hi.1, h2.2.trans hi.2⟩)
        have hzero : count_key rows fu g = 0 := count_key_eq_zero rows fu g hf
        have hc2 : count_key (database.upsert_rows rows u) fu g = 1 := by
          rw [hcnt, if_neg (by simp [hany]), hzero, hk]
          rfl
        have hlook : lookup_item (database.upsert_rows rows u) fu g = some u := by
          rw [hstep]; simp [hk, hf]
        rw [hlook, hc2, List.filter_cons_of_pos (by simp [hk])]
        simp

/-- A run of item upserts at the `Database` level acts on the `items` table
through `upsert_rows` and leaves the `feed` table and the schema version
alone. -/
lemma foldl_insert_update_item (ups : List database.Item) :
    ∀ db : database.Database,
      (ups.foldl (fun d i => d.insert_update_item i) db).items =
          ups.foldl database.upsert_rows db.items ∧
      (ups.foldl (fun d i => d.insert_update_item i) db).feeds = db.feeds ∧
      (ups.foldl (fun d i => d.insert_update_item i) db).user_version =
          db.user_version := by
  induction ups with
  | nil => intro db; exact ⟨rfl, rfl, rfl⟩
  | cons u ups ih =>
    intro db
    rcases ih (db.insert_update_item u) with ⟨h1, h2, h3⟩
    exact ⟨h1, h2, h3⟩

/-- C1: an item upsert with no row under `(feed_url, guid)` inserts a new row
as given (with `is_read = false`, the value every fetch-driven upsert
carries); on conflict it rewrites only `link`, `title` and `pub_date` of the
stored row, leaving `is_read` exactly as it was; rows under other keys are
untouched. -/
theorem insert_update_item_semantics (db : database.Database)
    (item : database.Item) (hread : item.is_read = false) :
    (lookup_item db.items item.feed_url item.guid = none →
      lookup_item (db.insert_update_item item).items item.feed_url item.guid =
        some item ∧ item.is_read = false) ∧
    (∀ old, lookup_item db.items item.feed_url item.guid = some old →
      lookup_item (db.insert_update_item item).items item.feed_url item.guid =
        some { old with link := item.link, title := item.title,
                        pub_date := item.pub_date }) ∧
    (∀ fu g, ¬(fu = item.feed_url ∧ g = item.guid) →
      lookup_item (db.insert_update_item item).items fu g =
        lookup_item db.items fu g) := by
  have hkey : key_matches item item.feed_url item.guid = true := by
    simp [key_matches]
  refine ⟨?_, ?_, ?_⟩
  · intro hnone
    refine ⟨?_, hread⟩
    show lookup_item (database.upsert_rows db.items item) item.feed_url item.guid
        = some item
    rw [lookup_upsert]
    simp [hkey, hnone]
  · intro old hsome
    show lookup_item (database.upsert_rows db.items item) item.feed_url item.guid
        = _
    rw [lookup_upsert]
    simp [hkey, hsome]
  · intro fu g hne
    show lookup_item (database.upsert_rows db.items item) fu g = _
    rw [lookup_upsert]
    have hfalse : key_matches item fu g = false := by
      apply Bool.eq_false_iff.mpr
      intro hcon
      rcases (key_matches_iff item fu g).mp hcon with ⟨h1, h2⟩
      exact hne ⟨h1.symm, h2.symm⟩
    simp [hfalse]

/-- C1 witness: on the empty store, upserting a concrete item inserts it with
`is_read = false`; upserting a changed version then rewrites only the
metadata, keeping `is_read`. -/
theorem insert_update_item_semantics_witness :
    lookup_item ((database.Database.mk 1 [] []).insert_update_item
        ⟨"u", "g", "t", "l", none, 0, false⟩).items "u" "g" =
      some ⟨"u", "g", "t", "l", none, 0, false⟩ ∧
    lookup_item ((database.Database.mk 1 []
          [⟨"u", "g", "t", "l", none, 0, true⟩]).insert_update_item
        ⟨"u", "g", "t2", "l2", none, 7, false⟩).items "u" "g" =
      some ⟨"u", "g", "t2", "l2", none, 7, true⟩ := by
  constructor
  · exact ((insert_update_item_semantics ⟨1, [], []⟩
      ⟨"u", "g", "t", "l", none, 0, false⟩ rfl).1 rfl).1
  · exact (insert_update_item_semantics ⟨1, [], [⟨"u", "g", "t", "l", none, 0, true⟩]⟩
      ⟨"u", "g", "t2", "l2", none, 7, false⟩ rfl).2.1
      ⟨"u", "g", "t", "l", none, 0, true⟩ rfl

/-- C3: opening the store reads the persisted schema version: version 0 runs
the one-shot schema creation, advancing the version to 1, and succeeds;
version 1 changes nothing and succeeds; any other version fails with
`UnknownVersion` carrying that version while the file state is returned
untouched (no schema statement executes). -/
theorem run_migrations_version_gate (db : database.Database) :
    (db.user_version = 0 →
      db.run_migrations = (database.create_db_sql db, .ok ()) ∧
      (db.run_migrations).1.user_version = 1) ∧
    (db.user_version = 1 → db.run_migrations = (db, .ok ())) ∧
    (∀ v, db.user_version = v → v ≠ 0 → v ≠ 1 →
      db.run_migrations = (db, .error (.UnknownVersion v))) := by
  refine ⟨?_, ?_, ?_⟩
  · intro h0
    constructor <;>
      simp [database.Database.run_migrations, h0, database.create_db_sql]
  · intro h1
    simp [database.Database.run_migrations, h1]
  · intro v hv h0 h1
    obtain ⟨w, rfl⟩ : ∃ w, v = w + 2 := by
      rcases v with _ | _ | w
      · exact absurd rfl h0
      · exact absurd rfl h1
      · exact ⟨w, rfl⟩
    simp [database.Database.run_migrations, hv]

/-- C3 witness: a store at version 0 is initialized to version 1; a store at
version 2 is refused with `UnknownVersion 2` and left untouched. -/
theorem run_migrations_version_gate_witness :
    (database.Database.mk 0 [] []).run_migrations =
      ((⟨1, [], []⟩ : database.Database), .ok ()) ∧
    (database.Database.mk 2 [] []).run_migrations =
      ((⟨2, [], []⟩ : database.Database), .error (.UnknownVersion 2)) := by
  constructor
  · exact ((run_migrations_version_gate ⟨0, [], []⟩).1 rfl).1
  · exact (run_migrations_version_gate ⟨2, [], []⟩).2.2 2 rfl
      (by decide) (by decide)

/-- C5: RSS-entry normalization fills each field from the entry when present
and otherwise defaults: guid to the empty string, title to "Untitled", link
to the fixed placeholder URL, and pub_date to the parsed publish-date string
or the current UTC instant when the date is missing or unparsable. -/
theorem rss_item_normalization (p : String → Option feed.Date)
    (now : feed.Date) (e : feed.RssItem) :
    (e.guid = none → (feed.Item.fromRss p now e).guid = "") ∧
    (∀ s, e.guid = some s → (feed.Item.fromRss p now e).guid = s) ∧
    (e.title = none → (feed.Item.fromRss p now e).title = "Untitled") ∧
    (∀ s, e.title = some s → (feed.Item.fromRss p now e).title = s) ∧
    (e.link = none → (feed.Item.fromRss p now e).link = "https://example.com") ∧
    (∀ s, e.link = some s → (feed.Item.fromRss p now e).link = s) ∧
    (e.pub_date = none → (feed.Item.fromRss p now e).pub_date = now) ∧
    (∀ s d, e.pub_date = some s → p s = some d →
      (feed.Item.fromRss p now e).pub_date = d) ∧
    (∀ s, e.pub_date = some s → p s = none →
      (feed.Item.fromRss p now e).pub_date = now) := by
  refine ⟨?_, ?_, ?_, ?_, ?_, ?_, ?_, ?_, ?_⟩ <;>
    · intros
      simp [feed.Item.fromRss, *]

/-- C5 witness: a fully empty entry takes every default; a fully populated
entry keeps its own values, with the publish date parsed. -/
theorem rss_item_normalization_witness :
    (feed.Item.fromRss (fun _ => none) 5 ⟨none, none, none, none, none⟩).guid
        = "" ∧
    (feed.Item.fromRss (fun _ => none) 5 ⟨none, none, none, none, none⟩).title
        = "Untitled" ∧
    (feed.Item.fromRss (fun _ => none) 5 ⟨none, none, none, none, none⟩).link
        = "https://example.com" ∧
    (feed.Item.fromRss (fun _ => none) 5 ⟨none, none, none, none, none⟩).pub_date
        = 5 ∧
    (feed.Item.fromRss (fun _ => some 3) 5
        ⟨some "g", some "t", some "l", some "c", some "d"⟩).pub_date = 3 ∧
    (feed.Item.fromRss (fun _ => none) 5
        ⟨some "g", some "t", some "l", some "c", some "d"⟩).pub_date = 5 := by
  refine ⟨?_, ?_, ?_, ?_, ?_, ?_⟩
  · exact (rss_item_normalization (fun _ => none) 5
      ⟨none, none, none, none, none⟩).1 rfl
  · exact (rss_item_normalization (fun _ => none) 5
      ⟨none, none, none, none, none⟩).2.2.1 rfl
  · exact (rss_item_normalization (fun _ => none) 5
      ⟨none, none, none, none, none⟩).2.2.2.2.1 rfl
  · exact (rss_item_normalization (fun _ => none) 5
      ⟨none, none, none, none, none⟩).2.2.2.2.2.2.1 rfl
  · exact (rss_item_normalization (fun _ => some 3) 5
      ⟨some "g", some "t", some "l", some "c", some "d"⟩).2.2.2.2.2.2.2.1
      "d" 3 rfl rfl
  · exact (rss_item_normalization (fun _ => none) 5
      ⟨some "g", some "t", some "l", some "c", some "d"⟩).2.2.2.2.2.2.2.2
      "d" rfl rfl

/-- C6: for an Atom document the feed-level link is the first declared link
address, or the literal string "Untitled" when no links are declared; and a
normalized Atom entry never carries a comments link. -/
theorem atom_link_fallback_and_comments (af : feed.AtomFeed)
    (now : feed.Date) (e : feed.AtomEntry) :
    (af.links = [] → (feed.Feed.Atom af).link = "Untitled") ∧
    (∀ l ls, af.links = l :: ls → (feed.Feed.Atom af).link = l.href) ∧
    (feed.Item.fromAtom now e).comments_link = none := by
  refine ⟨?_, ?_, rfl⟩
  · intro h
    simp [feed.Feed.link, h]
  · intro l ls h
    simp [feed.Feed.link, h]

/-- C6 witness: a linkless Atom feed reports "Untitled" as its link, a feed
with links reports the first address, and a concrete entry normalizes with no
comments link. -/
theorem atom_link_fallback_and_comments_witness :
    (feed.Feed.Atom ⟨"t", [], []⟩).link = "Untitled" ∧
    (feed.Feed.Atom ⟨"t", [⟨"h1"⟩, ⟨"h2"⟩], []⟩).link = "h1" ∧
    (feed.Item.fromAtom 0 ⟨"id", "t", [], none⟩).comments_link = none := by
  refine ⟨?_, ?_, ?_⟩
  · exact (atom_link_fallback_and_comments ⟨"t", [], []⟩ 0
      ⟨"id", "t", [], none⟩).1 rfl
  · exact (atom_link_fallback_and_comments ⟨"t", [⟨"h1"⟩, ⟨"h2"⟩], []⟩ 0
      ⟨"id", "t", [], none⟩).2.1 ⟨"h1"⟩ [⟨"h2"⟩] rfl
  · exact (atom_link_fallback_and_comments ⟨"t", [], []⟩ 0
      ⟨"id", "t", [], none⟩).2.2

/-- C9: a dry mail invocation returns the store untouched, so the unread
items of every feed are identical before and after; mark-all-read runs
exactly when the transport confirmed delivery, and a failed delivery leaves
the store untouched behind a `Sendmail` error. -/
theorem dry_mail_never_marks_read (db : database.Database) :
    (∀ send_ok, (main.run_mail true send_ok db).1 = db) ∧
    (∀ send_ok url, (main.run_mail true send_ok db).1.get_unread_items url =
      db.get_unread_items url) ∧
    ((main.run_mail false true db).1 = db.mark_all_items_read) ∧
    ((main.run_mail false false db).1 = db ∧
     (main.run_mail false false db).2 = .error .Sendmail) := by
  exact ⟨fun _ => rfl, fun _ _ => rfl, rfl, rfl, rfl⟩

/-- C4: the parser attempts a strict RSS parse first; a body accepted by the
RSS parser is decided without consulting the Atom parser (the result is the
same for any Atom parser); a body rejected by the RSS parser is attempted
under Atom; a body failing both yields a bare `Parse` error, and a fetch
reaching such a body mutates nothing in the store. -/
theorem read_from_trial_parse (rssP : String → Option feed.RssChannel)
    (atomP atomP2 : String → Option feed.AtomFeed) (body : String) :
    (∀ c, rssP body = some c →
      feed.Feed.read_from rssP atomP body = .ok (.Rss c) ∧
      feed.Feed.read_from rssP atomP body =
        feed.Feed.read_from rssP atomP2 body) ∧
    (rssP body = none → ∀ af, atomP body = some af →
      feed.Feed.read_from rssP atomP body = .ok (.Atom af)) ∧
    (rssP body = none → atomP body = none →
      feed.Feed.read_from rssP atomP body = .error .Parse) ∧
    (∀ p now feed_url (resp : main.HttpResponse) (db : database.Database),
      rssP resp.body = none → atomP resp.body = none →
      resp.status ≠ 304 → main.is_success resp.status = true →
      main.fetch_feed rssP atomP p now feed_url resp db =
        (db, .error (.Parse .Parse))) := by
  refine ⟨?_, ?_, ?_, ?_⟩
  · intro c hc
    constructor <;> simp [feed.Feed.read_from, hc]
  · intro hr af ha
    simp [feed.Feed.read_from, hr, ha]
  · intro hr ha
    simp [feed.Feed.read_from, hr, ha]
  · intro p now feed_url resp db hr ha h304 hsucc
    unfold main.fetch_feed
    rw [if_neg h304, if_neg (by simp [hsucc])]
    simp [feed.Feed.read_from, hr, ha]

/-- C4 witness: with concrete parsers, an RSS body is decided identically
under two different Atom parsers, an Atom body is parsed as Atom, an
unparsable body yields `Parse`, and a fetch of the unparsable body leaves a
concrete store unchanged. -/
theorem read_from_trial_parse_witness :
    (feed.Feed.read_from
        (fun s => if s = "r" then some ⟨"t", "l", []⟩ else none)
        (fun s => if s = "a" then some ⟨"t", [], []⟩ else none) "r" =
      .ok (.Rss ⟨"t", "l", []⟩)) ∧
    (feed.Feed.read_from
        (fun s => if s = "r" then some ⟨"t", "l", []⟩ else none)
        (fun s => if s = "a" then some ⟨"t", [], []⟩ else none) "a" =
      .ok (.Atom ⟨"t", [], []⟩)) ∧
    (feed.Feed.read_from
        (fun s => if s = "r" then some ⟨"t", "l", []⟩ else none)
        (fun s => if s = "a" then some ⟨"t", [], []⟩ else none) "x" =
      .error .Parse) ∧
    (main.fetch_feed
        (fun s => if s = "r" then some ⟨"t", "l", []⟩ else none)
        (fun s => if s = "a" then some ⟨"t", [], []⟩ else none)
        (fun _ => none) 0 "u" ⟨200, none, none, "x"⟩ ⟨1, [], []⟩ =
      (⟨1, [], []⟩, .error (.Parse .Parse))) := by
  refine ⟨?_, ?_, ?_, ?_⟩
  · exact ((read_from_trial_parse
      (fun s => if s = "r" then some ⟨"t", "l", []⟩ else none)
      (fun s => if s = "a" then some ⟨"t", [], []⟩ else none)
      (fun s => if s = "a" then some ⟨"t", [], []⟩ else none) "r").1
      ⟨"t", "l", []⟩ rfl).1
  · exact (read_from_trial_parse
      (fun s => if s = "r" then some ⟨"t", "l", []⟩ else none)
      (fun s => if s = "a" then some ⟨"t", [], []⟩ else none)
      (fun s => if s = "a" then some ⟨"t", [], []⟩ else none) "a").2.1
      rfl ⟨"t", [], []⟩ rfl
  · exact (read_from_trial_parse
      (fun s => if s = "r" then some ⟨"t", "l", []⟩ else none)
      (fun s => if s = "a" then some ⟨"t", [], []⟩ else none)
      (fun s => if s = "a" then some ⟨"t", [], []⟩ else none) "x").2.2.1
      rfl rfl
  · exact (read_from_trial_parse
      (fun s => if s = "r" then some ⟨"t", "l", []⟩ else none)
      (fun s => if s = "a" then some ⟨"t", [], []⟩ else none)
      (fun s => if s = "a" then some ⟨"t", [], []⟩ else none) "x").2.2.2
      (fun _ => none) 0 "u" ⟨200, none, none, "x"⟩ ⟨1, [], []⟩
      rfl rfl (by decide) rfl

/-- C7: a fetch answered with HTTP 304 produces the store unchanged and the
dedicated `FeedNotModified` stop condition; within a coordinator drain such a
job is invisible: the run proceeds exactly as if the job were absent. -/
theorem fetch_feed_not_modified (rssP : String → Option feed.RssChannel)
    (atomP : String → Option feed.AtomFeed)
    (p : String → Option feed.Date) (now : feed.Date) (feed_url : String)
    (resp : main.HttpResponse) (db : database.Database)
    (h304 : resp.status = 304) :
    main.fetch_feed rssP atomP p now feed_url resp db =
      (db, .error .FeedNotModified) ∧
    (∀ jobs1 jobs2 (db0 : database.Database),
      main.fetch_feeds rssP atomP p now (jobs1 ++ (feed_url, resp) :: jobs2) db0 =
        main.fetch_feeds rssP atomP p now (jobs1 ++ jobs2) db0) := by
  have hone : ∀ d : database.Database,
      main.fetch_feed rssP atomP p now feed_url resp d =
        (d, .error .FeedNotModified) := by
    intro d
    unfold main.fetch_feed
    rw [if_pos h304]
  refine ⟨hone db, ?_⟩
  intro jobs1
  induction jobs1 with
  | nil =>
    intro jobs2 db0
    have hstep : main.fetch_feeds rssP atomP p now ((feed_url, resp) :: jobs2) db0 =
        main.fetch_feeds rssP atomP p now jobs2
          (main.fetch_feed rssP atomP p now feed_url resp db0).1 := rfl
    rw [List.nil_append, hstep, hone db0]
    rfl
  | cons job jobs1 ih =>
    intro jobs2 db0
    rcases job with ⟨u2, r2⟩
    show main.fetch_feeds rssP atomP p now
        ((u2, r2) :: (jobs1 ++ (feed_url, resp) :: jobs2)) db0 = _
    unfold main.fetch_feeds
    exact ih jobs2 _

/-- C7 witness: a concrete 304 response leaves a concrete store untouched
with the `FeedNotModified` outcome, and dropping the 304 job from a concrete
queue does not change the drain result. -/
theorem fetch_feed_not_modified_witness :
    main.fetch_feed (fun _ => none) (fun _ => none) (fun _ => none) 0 "u"
        ⟨304, none, none, ""⟩ ⟨1, [⟨"u", "l", "t", none, none⟩], []⟩ =
      (⟨1, [⟨"u", "l", "t", none, none⟩], []⟩, .error .FeedNotModified) ∧
    main.fetch_feeds (fun _ => none) (fun _ => none) (fun _ => none) 0
        ([] ++ ("u", ⟨304, none, none, ""⟩) :: []) ⟨1, [], []⟩ =
      main.fetch_feeds (fun _ => none) (fun _ => none) (fun _ => none) 0
        ([] ++ []) ⟨1, [], []⟩ := by
  constructor
  · exact (fetch_feed_not_modified (fun _ => none) (fun _ => none)
      (fun _ => none) 0 "u" ⟨304, none, none, ""⟩
      ⟨1, [⟨"u", "l", "t", none, none⟩], []⟩ rfl).1
  · exact (fetch_feed_not_modified (fun _ => none) (fun _ => none)
      (fun _ => none) 0 "u" ⟨304, none, none, ""⟩ ⟨1, [], []⟩ rfl).2
      [] [] ⟨1, [], []⟩

lemma get_feed_by_url_insert_update (db : database.Database)
    (f : database.Feed) :
    (db.insert_update_feed f).get_feed_by_url f.url = some f := by
  unfold database.Database.insert_update_feed database.Database.get_feed_by_url
  rw [List.find?_append]
  have h1 : (db.feeds.filter (fun r => r.url != f.url)).find?
      (fun r => r.url == f.url) = none := by
    apply List.find?_eq_none.mpr
    intro r hmem
    have hr := List.of_mem_filter hmem
    simp at hr ⊢
    exact hr
  rw [h1]
  simp [List.find?]

/-- A successful (non-304, 2xx, parsable) fetch is the feed-row replace
followed by the run of item upserts, ending in `ok`. -/
lemma fetch_feed_success (rssP : String → Option feed.RssChannel)
    (atomP : String → Option feed.AtomFeed)
    (p : String → Option feed.Date) (now : feed.Date) (feed_url : String)
    (resp : main.HttpResponse) (db : database.Database) (f : feed.Feed)
    (h304 : resp.status ≠ 304) (hsucc : main.is_success resp.status = true)
    (hparse : feed.Feed.read_from rssP atomP resp.body = .ok f) :
    main.fetch_feed rssP atomP p now feed_url resp db =
      (((f.items p now).map (main.to_row feed_url)).foldl
          (fun d i => d.insert_update_item i)
          (db.insert_update_feed
            ⟨feed_url, f.link, f.title, resp.etag, resp.last_modified⟩),
        .ok ()) := by
  unfold main.fetch_feed
  rw [if_neg h304, if_neg (by simp [hsucc]), hparse, List.foldl_map]

/-- C8: after a successful (non-304) fetch, the stored feed row is a full
replace built only from this response: its link and title come from the
parsed document and its etag and last-modified come from the response
headers, absent headers clearing the stored values rather than preserving
them; the previous row never contributes. -/
theorem fetch_feed_replaces_feed_row (rssP : String → Option feed.RssChannel)
    (atomP : String → Option feed.AtomFeed)
    (p : String → Option feed.Date) (now : feed.Date) (feed_url : String)
    (resp : main.HttpResponse) (db : database.Database) (f : feed.Feed)
    (h304 : resp.status ≠ 304) (hsucc : main.is_success resp.status = true)
    (hparse : feed.Feed.read_from rssP atomP resp.body = .ok f) :
    (main.fetch_feed rssP atomP p now feed_url resp db).1.get_feed_by_url
        feed_url =
      some ⟨feed_url, f.link, f.title, resp.etag, resp.last_modified⟩ ∧
    (main.fetch_feed rssP atomP p now feed_url resp db).2 = .ok () := by
  rw [fetch_feed_success rssP atomP p now feed_url resp db f h304 hsucc hparse]
  refine ⟨?_, rfl⟩
  rcases foldl_insert_update_item ((f.items p now).map (main.to_row feed_url))
      (db.insert_update_feed
        ⟨feed_url, f.link, f.title, resp.etag, resp.last_modified⟩) with
    ⟨_, h2, _⟩
  have hlook := get_feed_by_url_insert_update db
    ⟨feed_url, f.link, f.title, resp.etag, resp.last_modified⟩
  unfold database.Database.get_feed_by_url at hlook ⊢
  rw [h2]
  exact hlook

/-- C8 witness: fetching over a store whose row for the feed carries an old
link, title, etag and last-modified, with a response that has no caching
headers, leaves exactly the parsed link/title and cleared etag/last-modified
in the stored row. -/
theorem fetch_feed_replaces_feed_row_witness :
    (main.fetch_feed (fun s => if s = "r" then some ⟨"T", "L", []⟩ else none)
        (fun _ => none) (fun _ => none) 0 "u" ⟨200, none, none, "r"⟩
        ⟨1, [⟨"u", "oldL", "oldT", some "etag", some "lm"⟩], []⟩).1.get_feed_by_url
        "u" =
      some ⟨"u", "L", "T", none, none⟩ := by
  exact (fetch_feed_replaces_feed_row
    (fun s => if s = "r" then some ⟨"T", "L", []⟩ else none)
    (fun _ => none) (fun _ => none) 0 "u" ⟨200, none, none, "r"⟩
    ⟨1, [⟨"u", "oldL", "oldT", some "etag", some "lm"⟩], []⟩
    (feed.Feed.Rss ⟨"T", "L", []⟩) (by decide) rfl rfl).1

/-- C2: once a stored item is read, no run of fetch-driven upserts under the
same key resets it: the row survives every upsert with `is_read` still true,
while its metadata tracks the last conflicting upsert (so a re-fetch with a
changed title ends with the new title and `is_read` still true). -/
theorem upsert_never_resets_is_read (db : database.Database) (fu g : String)
    (itm : database.Item) (hfound : lookup_item db.items fu g = some itm)
    (hread : itm.is_read = true) (ups : List database.Item) :
    ∃ itm2,
      lookup_item ((ups.foldl (fun d i => d.insert_update_item i) db).items)
          fu g = some itm2 ∧
      itm2.is_read = true ∧
      (∀ last, (ups.filter (fun u => key_matches u fu g)).getLast? = some last →
        itm2.title = last.title ∧ itm2.link = last.link ∧
        itm2.pub_date = last.pub_date) := by
  rcases foldl_insert_update_item ups db with ⟨h1, _, _⟩
  rw [h1, lookup_foldl_upsert ups fu g db.items, hfound]
  refine ⟨merge_meta itm (ups.filter fun u => key_matches u fu g), rfl, ?_, ?_⟩
  · rw [(merge_meta_frame _ itm).1, hread]
  · intro last hlast
    exact merge_meta_getLast _ itm last hlast

/-- C2 witness: a store holding a read item, hit by a fetch-driven upsert of
the same key with a new title and `is_read = false`, ends with the new title
and `is_read` still true. -/
theorem upsert_never_resets_is_read_witness :
    ∃ itm2,
      lookup_item
          (([(⟨"u", "g1", "new", "l2", none, 5, false⟩ : database.Item)].foldl
            (fun d i => d.insert_update_item i)
            (⟨1, [], [⟨"u", "g1", "old", "l", none, 0, true⟩]⟩ :
              database.Database)).items)
          "u" "g1" = some itm2 ∧
      itm2.is_read = true ∧
      (∀ last,
        ([(⟨"u", "g1", "new", "l2", none, 5, false⟩ : database.Item)].filter
          (fun u => key_matches u "u" "g1")).getLast? = some last →
        itm2.title = last.title ∧ itm2.link = last.link ∧
        itm2.pub_date = last.pub_date) :=
  upsert_never_resets_is_read
    ⟨1, [], [⟨"u", "g1", "old", "l", none, 0, true⟩]⟩ "u" "g1"
    ⟨"u", "g1", "old", "l", none, 0, true⟩ (by decide) rfl
    [⟨"u", "g1", "new", "l2", none, 5, false⟩]

lemma merge_meta_head_getLast (u0 : database.Item)
    (rest : List database.Item) (last : database.Item)
    (h : (u0 :: rest).getLast? = some last) :
    (merge_meta u0 rest).title = last.title ∧
    (merge_meta u0 rest).link = last.link ∧
    (merge_meta u0 rest).pub_date = last.pub_date := by
  cases rest with
  | nil =>
    simp at h
    subst h
    exact ⟨rfl, rfl, rfl⟩
  | cons k ks =>
    rw [List.getLast?_cons_cons] at h
    exact merge_meta_getLast (k :: ks) u0 last h

/-- C10: RSS entries lacking an identifier all normalize to guid `""` and so
share the primary key `(feed_url, "")`: processing a document with two or
more identifier-less entries over a store with no such row leaves exactly one
row under that key, holding the upsert-written metadata (title, link,
pub_date) of the last identifier-less entry processed, unread. -/
theorem guidless_rss_entries_collapse (feed_url : String)
    (p : String → Option feed.Date) (now : feed.Date)
    (entries : List feed.RssItem) (db : database.Database)
    (hfresh : lookup_item db.items feed_url "" = none)
    (hid : ∀ e ∈ entries, e.guid ≠ some "")
    (htwo : 2 ≤ (entries.filter (fun e => e.guid.isNone)).length) :
    count_key ((entries.map
        (fun e => main.to_row feed_url (feed.Item.fromRss p now e))).foldl
        (fun d i => d.insert_update_item i) db).items feed_url "" = 1 ∧
    ∃ (row : database.Item) (last : feed.RssItem),
      (entries.filter (fun e => e.guid.isNone)).getLast? = some last ∧
      lookup_item ((entries.map
          (fun e => main.to_row feed_url (feed.Item.fromRss p now e))).foldl
          (fun d i => d.insert_update_item i) db).items feed_url "" =
        some row ∧
      row.feed_url = feed_url ∧ row.guid = "" ∧ row.is_read = false ∧
      row.title = (feed.Item.fromRss p now last).title ∧
      row.link = (feed.Item.fromRss p now last).link ∧
      row.pub_date = (feed.Item.fromRss p now last).pub_date := by
  have hpred : ∀ e ∈ entries,
      key_matches (main.to_row feed_url (feed.Item.fromRss p now e))
        feed_url "" = e.guid.isNone := by
    intro e he
    cases hg : e.guid with
    | none => simp [key_matches, main.to_row, feed.Item.fromRss, hg]
    | some s =>
      have hs : (s == "") = false := by
        apply Bool.eq_false_iff.mpr
        intro hcon
        exact hid e he (by rw [hg, beq_iff_eq.mp hcon])
      simp [key_matches, main.to_row, feed.Item.fromRss, hg, hs]
  have hK : (entries.map
        (fun e => main.to_row feed_url (feed.Item.fromRss p now e))).filter
        (fun u => key_matches u feed_url "") =
      (entries.filter (fun e => e.guid.isNone)).map
        (fun e => main.to_row feed_url (feed.Item.fromRss p now e)) := by
    rw [List.filter_map]
    congr 1
    apply List.filter_congr
    intro e he
    simpa [Function.comp] using hpred e he
  have hEne : entries.filter (fun e => e.guid.isNone) ≠ [] := by
    intro h0
    rw [h0] at htwo
    simp at htwo
  obtain ⟨last, hlast⟩ : ∃ last,
      (entries.filter (fun e => e.guid.isNone)).getLast? = some last :=
    Option.isSome_iff_exists.mp (List.getLast?_isSome.mpr hEne)
  rcases foldl_insert_update_item
      (entries.map (fun e => main.to_row feed_url (feed.Item.fromRss p now e)))
      db with ⟨h1, _, _⟩
  constructor
  · rw [h1, count_foldl_upsert _ feed_url "" db.items, hfresh, hK]
    have hmapne : (entries.filter (fun e => e.guid.isNone)).map
        (fun e => main.to_row feed_url (feed.Item.fromRss p now e)) ≠ [] := by
      simpa using hEne
    simp [List.isEmpty_iff, hmapne]
  · rw [h1, lookup_foldl_upsert _ feed_url "" db.items, hfresh, hK]
    cases hE : entries.filter (fun e => e.guid.isNone) with
    | nil => exact absurd hE hEne
    | cons e0 erest =>
      rw [hE] at hlast
      have he0mem : e0 ∈ entries.filter (fun e => e.guid.isNone) := by
        rw [hE]
        exact List.mem_cons_self e0 erest
      have he0none : e0.guid = none :=
        Option.isNone_iff_eq_none.mp (List.mem_filter.mp he0mem).2
      have hglast : ((e0 :: erest).map
            (fun e => main.to_row feed_url (feed.Item.fromRss p now e))).getLast?
          = some (main.to_row feed_url (feed.Item.fromRss p now last)) := by
        rw [List.getLast?_map, hlast]
        rfl
      rcases merge_meta_head_getLast _ _ _ hglast with ⟨ht, hl, hp⟩
      refine ⟨merge_meta (main.to_row feed_url (feed.Item.fromRss p now e0))
          (erest.map (fun e => main.to_row feed_url (feed.Item.fromRss p now e))),
        last, hlast, ?_, ?_, ?_, ?_, ht, hl, hp⟩
      · rfl
      · rw [(merge_meta_frame _ _).2.1]
        rfl
      · rw [(merge_meta_frame _ _).2.2.1]
        simp [main.to_row, feed.Item.fromRss, he0none]
      · rw [(merge_meta_frame _ _).1]
        rfl

/-- C10 witness: a document of two identifier-less entries with different
titles, fetched into an empty store, leaves exactly one row under key
`(feed_url, "")`, carrying the second title. -/
theorem guidless_rss_entries_collapse_witness :
    count_key (([⟨none, some "A", none, none, none⟩,
        (⟨none, some "B", none, none, none⟩ : feed.RssItem)].map
        (fun e => main.to_row "u" (feed.Item.fromRss (fun _ => none) 0 e))).foldl
        (fun d i => d.insert_update_item i)
        (⟨1, [], []⟩ : database.Database)).items "u" "" = 1 ∧
    ∃ (row : database.Item) (last : feed.RssItem),
      ([⟨none, some "A", none, none, none⟩,
        (⟨none, some "B", none, none, none⟩ : feed.RssItem)].filter
        (fun e => e.guid.isNone)).getLast? = some last ∧
      lookup_item (([⟨none, some "A", none, none, none⟩,
          (⟨none, some "B", none, none, none⟩ : feed.RssItem)].map
          (fun e => main.to_row "u" (feed.Item.fromRss (fun _ => none) 0 e))).foldl
          (fun d i => d.insert_update_item i)
          (⟨1, [], []⟩ : database.Database)).items "u" "" = some row ∧
      row.feed_url = "u" ∧ row.guid = "" ∧ row.is_read = false ∧
      row.title = (feed.Item.fromRss (fun _ => none) 0 last).title ∧
      row.link = (feed.Item.fromRss (fun _ => none) 0 last).link ∧
      row.pub_date = (feed.Item.fromRss (fun _ => none) 0 last).pub_date :=
  guidless_rss_entries_collapse "u" (fun _ => none) 0
    [⟨none, some "A", none, none, none⟩, ⟨none, some "B", none, none, none⟩]
    ⟨1, [], []⟩ rfl (by decide) (by decide)
